import Mathlib

/-!
A shallow embedding of the ThreadPool implementation (threadpool.h and
threadpool.cpp): pool state, configuration setters, task submission
(ThreadPool::submitTask) and the worker consume loop (ThreadPool::threadFunc),
with machine-integer wraparound made explicit.  Counters mirror the C++
types: taskSize_ is an atomic_uint (32-bit unsigned, wraps modulo 2^32),
idleThreadSize_ is an atomic_int (32-bit two-complement), and the size_t
configuration fields receive int arguments through the usual C++ conversions.
Each theorem below checks one sentence of the natural-language specification
against these definitions.
-/

/-- Update of a C++ unsigned 32-bit counter: values wrap modulo 2^32. -/
def uint32Wrap (n : Nat) : Nat := n % 2 ^ 32

/-- Wraparound of a C++ signed 32-bit int (two-complement). -/
def int32Wrap (i : Int) : Int := (i + 2 ^ 31) % 2 ^ 32 - 2 ^ 31

/-- The C++ usual-arithmetic conversion of an int operand to unsigned int, as
it happens in the comparison taskSize_ > idleThreadSize_ in submitTask. -/
def uint32OfInt (i : Int) : Nat := (i % 2 ^ 32).toNat

/-- The C++ conversion from int to size_t (64-bit), as performed by the
setters that store an int argument into a size_t field. -/
def uint64OfInt (i : Int) : Nat := (i % 2 ^ 64).toNat

theorem uint32Wrap_of_lt {n : Nat} (h : n < 2 ^ 32) : uint32Wrap n = n := by
  simpa [uint32Wrap] using Nat.mod_eq_of_lt h

theorem uint32Wrap_pred {n : Nat} (h1 : 1 ≤ n) (h2 : n < 2 ^ 32) :
    uint32Wrap (n + 2 ^ 32 - 1) = n - 1 := by
  unfold uint32Wrap
  omega

theorem int32Wrap_of_bounds {i : Int} (h1 : -(2 ^ 31) ≤ i) (h2 : i < 2 ^ 31) :
    int32Wrap i = i := by
  unfold int32Wrap
  omega

/-- PoolMode from threadpool.h. -/
inductive PoolMode where
  | MODE_FIXED
  | MODE_CACHED
  deriving DecidableEq, Repr

/-- The fields of class ThreadPool that the verified operations read or write.
The thread map is modelled by its list of keys (the numeric thread ids); the
task queue holds values of an arbitrary payload type τ (in the C++ source the
payload is a std function object of no arguments). -/
structure ThreadPoolState (τ : Type) where
  threadsMap : List Nat
  initThreadSize : Nat
  maxThreadSize : Nat
  maxThreadFreeTime : Nat
  idleThreadSize : Int
  taskQueue : List τ
  taskSize : Nat
  taskQueueMaxSize : Nat
  poolMode : PoolMode
  isPoolRunning : Bool

/-- TASK_MAX_SIZE = INT32_MAX from threadpool.cpp. -/
def TASK_MAX_SIZE : Nat := 2147483647

/-- THREAD_MAX_SIZE = 1024 from threadpool.cpp. -/
def THREAD_MAX_SIZE : Nat := 1024

/-- The ThreadPool constructor: initial field values from threadpool.cpp. -/
def ThreadPool.new (τ : Type) : ThreadPoolState τ :=
  { threadsMap := []
    initThreadSize := 0
    maxThreadSize := THREAD_MAX_SIZE
    maxThreadFreeTime := 60
    idleThreadSize := 0
    taskQueue := []
    taskSize := 0
    taskQueueMaxSize := TASK_MAX_SIZE
    poolMode := PoolMode.MODE_FIXED
    isPoolRunning := false }

/-- ThreadPool::isRunningState. -/
def ThreadPool.isRunningState {τ : Type} (s : ThreadPoolState τ) : Bool :=
  s.isPoolRunning

/-- ThreadPool::setMode. -/
def ThreadPool.setMode {τ : Type} (s : ThreadPoolState τ) (mode : PoolMode) :
    ThreadPoolState τ :=
  if ThreadPool.isRunningState s then s
  else { s with poolMode := mode }

/-- ThreadPool::setMaxThreadSize (int argument stored into a size_t field). -/
def ThreadPool.setMaxThreadSize {τ : Type} (s : ThreadPoolState τ) (maxSize : Int) :
    ThreadPoolState τ :=
  if ThreadPool.isRunningState s then s
  else { s with maxThreadSize := uint64OfInt maxSize }

/-- ThreadPool::setMaxThreadFreeTime_ (size_t argument). -/
def ThreadPool.setMaxThreadFreeTime_ {τ : Type} (s : ThreadPoolState τ) (time : Nat) :
    ThreadPoolState τ :=
  if ThreadPool.isRunningState s then s
  else if s.poolMode = PoolMode.MODE_CACHED then { s with maxThreadFreeTime := time }
  else s

/-- ThreadPool::setTaskQueueMaxSize (int argument stored into a size_t field). -/
def ThreadPool.setTaskQueueMaxSize {τ : Type} (s : ThreadPoolState τ) (maxSize_ : Int) :
    ThreadPoolState τ :=
  if ThreadPool.isRunningState s then s
  else if s.poolMode = PoolMode.MODE_CACHED then
    { s with taskQueueMaxSize := uint64OfInt maxSize_ }
  else s

/-- std::unordered_map::emplace on the key set: the key is inserted only when
it is not already present. -/
def mapEmplace (m : List Nat) (id : Nat) : List Nat :=
  if id ∈ m then m else m ++ [id]

/-- The shared state behind the std::future that submitTask returns.  On the
success path the future belongs to the packaged task whose invoking lambda was
placed on the queue.  On the timeout path the future belongs to the placeholder
packaged task created inside the failure branch; submitTask returns without
ever invoking that placeholder and drops its only shared_ptr reference, so the
destructor of std::packaged_task abandons the shared state with a
broken_promise error.  The body the placeholder would have run is recorded for
reference only. -/
inductive FutureOutcome (β : Type) where
  | pendingOnQueue (thunk : Unit → β)
  | brokenPromise (uninvokedBody : Unit → β)

/-- What a call to get on the returned future observes: a value, a block until
the queued task runs, or a thrown std::future_error (broken_promise). -/
inductive FutureObservation (β : Type) where
  | blockedPending
  | brokenPromiseError
  | value (v : β)
  deriving Repr

/-- The observation std::future::get makes, as a function of whether the pool
has already executed the enqueued lambda of this submission. -/
def FutureOutcome.observe {β : Type} : FutureOutcome β → Bool → FutureObservation β
  | FutureOutcome.pendingOnQueue thunk, true => FutureObservation.value (thunk ())
  | FutureOutcome.pendingOnQueue _, false => FutureObservation.blockedPending
  | FutureOutcome.brokenPromise _, _ => FutureObservation.brokenPromiseError

/-- Everything a call to ThreadPool::submitTask produces: the pool state after
the call, the future handed to the caller, whether the task was enqueued,
whether the not-empty condition was signalled, and the id of the worker the
Cached growth branch created, when it did. -/
structure SubmitOutcome (β : Type) where
  state : ThreadPoolState (Unit → β)
  future : FutureOutcome β
  enqueued : Bool
  notifiedNotEmpty : Bool
  createdWorker : Option Nat

/-- ThreadPool::submitTask from threadpool.h.  The bound callable and argument
pack are modelled by a function and one argument (std::bind packs the
arguments); the packaged task invocation computes func args.  The predicate of
the one-second wait on queueNotFull_ is evaluated on the state observed when
the wait returns: wait_for with a predicate returns false exactly when the
timeout elapsed with the predicate still false, which is the failure branch.
newThreadId stands for the id generated by the Thread object the Cached branch
creates. -/
def ThreadPool.submitTask {α β : Type} [Inhabited β] (s : ThreadPoolState (Unit → β))
    (func : α → β) (args : α) (newThreadId : Nat) : SubmitOutcome β :=
  let task : Unit → β := fun _ => func args
  if ¬ (s.taskQueue.length < s.taskQueueMaxSize) then
    { state := s
      future := FutureOutcome.brokenPromise (fun _ => (default : β))
      enqueued := false
      notifiedNotEmpty := false
      createdWorker := none }
  else
    let s1 : ThreadPoolState (Unit → β) :=
      { s with taskQueue := s.taskQueue ++ [task]
               taskSize := uint32Wrap (s.taskSize + 1) }
    if s1.poolMode = PoolMode.MODE_CACHED ∧ s1.taskSize > uint32OfInt s1.idleThreadSize
        ∧ s1.threadsMap.length < s1.maxThreadSize then
      let s2 : ThreadPoolState (Unit → β) :=
        { s1 with threadsMap := mapEmplace s1.threadsMap newThreadId
                  idleThreadSize := int32Wrap (s1.idleThreadSize + 1) }
      { state := s2
        future := FutureOutcome.pendingOnQueue task
        enqueued := true
        notifiedNotEmpty := true
        createdWorker := some newThreadId }
    else
      { state := s1
        future := FutureOutcome.pendingOnQueue task
        enqueued := true
        notifiedNotEmpty := true
        createdWorker := none }

/-- What one pass through the lock-held part of the consume loop in
ThreadPool::threadFunc decides to do next. -/
inductive WorkerAction (τ : Type) where
  | exit
  | retire
  | waitFixed
  | waitCached
  | execute (t : τ)

/-- The pool state after one lock-held pass of the consume loop, the decision
taken, and which condition variables were signalled during the pass. -/
structure WorkerStep (τ : Type) where
  state : ThreadPoolState τ
  action : WorkerAction τ
  notifiedWorkFinished : Bool
  notifiedNotFull : Bool
  notifiedNotEmpty : Bool

/-- The top of the consume loop of ThreadPool::threadFunc, evaluated with the
queue lock held: the while condition on an empty queue, the shutdown exit
path, the choice of wait for the current mode, and the dequeue path once the
queue is non-empty. -/
def ThreadPool.threadFuncCheck {τ : Type} (s : ThreadPoolState τ) (threadId : Nat) :
    WorkerStep τ :=
  match s.taskQueue with
  | [] =>
    if ¬ s.isPoolRunning then
      { state := { s with threadsMap := s.threadsMap.erase threadId }
        action := WorkerAction.exit
        notifiedWorkFinished := true
        notifiedNotFull := false
        notifiedNotEmpty := false }
    else if s.poolMode = PoolMode.MODE_CACHED then
      { state := s
        action := WorkerAction.waitCached
        notifiedWorkFinished := false
        notifiedNotFull := false
        notifiedNotEmpty := false }
    else
      { state := s
        action := WorkerAction.waitFixed
        notifiedWorkFinished := false
        notifiedNotFull := false
        notifiedNotEmpty := false }
  | t :: rest =>
    { state :=
        { s with idleThreadSize := int32Wrap (s.idleThreadSize - 1)
                 taskQueue := rest
                 taskSize := uint32Wrap (s.taskSize + 2 ^ 32 - 1) }
      action := WorkerAction.execute t
      notifiedWorkFinished := false
      notifiedNotFull := true
      notifiedNotEmpty := !rest.isEmpty }

/-- The continuation of ThreadPool::threadFunc after the Cached-mode one-second
wait on queueNotEmpty_ returns and the lock is reacquired.  cvTimedOut records
whether wait_for reported cv_status::timeout; idleDur is the computed idle
duration in seconds.  The state is re-observed here: producers held the lock
during the wait and may have changed it, and the retire branch of the source
does not look at the queue again.  When the retire branch is not taken the
worker falls through to the while condition check with the lock still held. -/
def ThreadPool.threadFuncWake {τ : Type} (s : ThreadPoolState τ) (threadId : Nat)
    (cvTimedOut : Bool) (idleDur : Nat) : WorkerStep τ :=
  if cvTimedOut ∧ idleDur ≥ s.maxThreadFreeTime
      ∧ s.threadsMap.length > s.initThreadSize then
    let s1 : ThreadPoolState τ :=
      { s with idleThreadSize := int32Wrap (s.idleThreadSize - 1) }
    { state :=
        { s1 with threadsMap := s1.threadsMap.erase threadId
                  idleThreadSize := int32Wrap (s1.idleThreadSize - 1) }
      action := WorkerAction.retire
      notifiedWorkFinished := false
      notifiedNotFull := false
      notifiedNotEmpty := false }
  else
    ThreadPool.threadFuncCheck s threadId

/-- The bookkeeping ThreadPool::threadFunc performs after running a task
outside the lock: the idle counter is incremented again. -/
def ThreadPool.afterExecute {τ : Type} (s : ThreadPoolState τ) : ThreadPoolState τ :=
  { s with idleThreadSize := int32Wrap (s.idleThreadSize + 1) }

/-- A worker repeatedly taking the lock, dequeuing and executing, collecting
the tasks in the order it executes them; it stops at the first pass whose
action is not a dequeue.  Fuel bounds the number of passes. -/
def ThreadPool.runConsume {τ : Type} (threadId : Nat) : Nat → ThreadPoolState τ → List τ
  | 0, _ => []
  | fuel + 1, s =>
    match ThreadPool.threadFuncCheck s threadId with
    | step =>
      match step.action with
      | WorkerAction.execute t =>
          t :: ThreadPool.runConsume threadId fuel (ThreadPool.afterExecute step.state)
      | _ => []

theorem mapEmplace_length_le (m : List Nat) (id : Nat) :
    (mapEmplace m id).length ≤ m.length + 1 := by
  unfold mapEmplace
  split <;> simp

theorem length_erase_ge {l : List Nat} {a : Nat} {k : Nat} (h : l.length > k) :
    (l.erase a).length ≥ k := by
  by_cases hm : a ∈ l
  · rw [List.length_erase_of_mem hm]
    omega
  · rw [List.erase_of_not_mem hm]
    omega

theorem threadFuncCheck_action_ne_retire {τ : Type} (s : ThreadPoolState τ) (threadId : Nat) :
    (ThreadPool.threadFuncCheck s threadId).action ≠ WorkerAction.retire := by
  cases hq : s.taskQueue with
  | nil =>
    by_cases hr : s.isPoolRunning <;> by_cases hm : s.poolMode = PoolMode.MODE_CACHED <;>
      simp [ThreadPool.threadFuncCheck, hq, hr, hm]
  | cons t rest =>
    simp [ThreadPool.threadFuncCheck, hq]

theorem threadFuncCheck_queue_shrinks {τ : Type} (s : ThreadPoolState τ) (threadId : Nat) :
    (ThreadPool.threadFuncCheck s threadId).state.taskQueue.length ≤ s.taskQueue.length := by
  cases hq : s.taskQueue with
  | nil =>
    by_cases hr : s.isPoolRunning <;> by_cases hm : s.poolMode = PoolMode.MODE_CACHED <;>
      simp [ThreadPool.threadFuncCheck, hq, hr, hm]
  | cons t rest =>
    simp [ThreadPool.threadFuncCheck, hq]

theorem threadFuncWake_queue_shrinks {τ : Type} (s : ThreadPoolState τ) (threadId : Nat)
    (cvTimedOut : Bool) (idleDur : Nat) :
    (ThreadPool.threadFuncWake s threadId cvTimedOut idleDur).state.taskQueue.length
      ≤ s.taskQueue.length := by
  unfold ThreadPool.threadFuncWake
  split
  · simp
  · exact threadFuncCheck_queue_shrinks s threadId

theorem runConsume_eq_taskQueue {τ : Type} (threadId : Nat) :
    ∀ (fuel : Nat) (s : ThreadPoolState τ), s.taskQueue.length ≤ fuel →
      ThreadPool.runConsume threadId fuel s = s.taskQueue := by
  intro fuel
  induction fuel with
  | zero =>
    intro s h
    have hq : s.taskQueue = [] := List.length_eq_zero.mp (Nat.le_zero.mp h)
    simp [ThreadPool.runConsume, hq]
  | succ n ih =>
    intro s h
    cases hq : s.taskQueue with
    | nil =>
      by_cases hr : s.isPoolRunning <;> by_cases hm : s.poolMode = PoolMode.MODE_CACHED <;>
        simp [ThreadPool.runConsume, ThreadPool.threadFuncCheck, hq, hr, hm]
    | cons t rest =>
      have hlen : rest.length ≤ n := by
        rw [hq] at h
        simpa using h
      simp only [ThreadPool.runConsume, ThreadPool.threadFuncCheck, hq]
      rw [ih _ (by simpa [ThreadPool.afterExecute] using hlen)]
      simp [ThreadPool.afterExecute]

/-- Claim C9: once the pool is running, setMode, setMaxThreadSize,
setMaxThreadFreeTime_ and setTaskQueueMaxSize all return without modifying any
pool state. -/
theorem setters_noop_while_running {τ : Type} (s : ThreadPoolState τ) (m : PoolMode)
    (v q : Int) (t : Nat) (h : s.isPoolRunning = true) :
    ThreadPool.setMode s m = s ∧ ThreadPool.setMaxThreadSize s v = s
    ∧ ThreadPool.setMaxThreadFreeTime_ s t = s
    ∧ ThreadPool.setTaskQueueMaxSize s q = s := by
  simp [ThreadPool.setMode, ThreadPool.setMaxThreadSize, ThreadPool.setMaxThreadFreeTime_,
    ThreadPool.setTaskQueueMaxSize, ThreadPool.isRunningState, h]

def c9RunningPool : ThreadPoolState Nat :=
  { ThreadPool.new Nat with isPoolRunning := true }

theorem setters_noop_while_running_witness :
    c9RunningPool.isPoolRunning = true
    ∧ ThreadPool.setMode c9RunningPool PoolMode.MODE_CACHED = c9RunningPool
    ∧ ThreadPool.setMaxThreadSize c9RunningPool 7 = c9RunningPool
    ∧ ThreadPool.setMaxThreadFreeTime_ c9RunningPool 3 = c9RunningPool
    ∧ ThreadPool.setTaskQueueMaxSize c9RunningPool 5 = c9RunningPool := by
  have h := setters_noop_while_running c9RunningPool PoolMode.MODE_CACHED 7 5 3 rfl
  exact ⟨rfl, h.1, h.2.1, h.2.2.1, h.2.2.2⟩

/-- Claim C10: while the pool is stopped and in the default Fixed mode,
setTaskQueueMaxSize and setMaxThreadFreeTime_ are no-ops (the defaults
INT32_MAX and 60 from the constructor persist), while setMaxThreadSize stores
its argument in either mode. -/
theorem setters_gated_by_cached_mode {τ : Type} (s : ThreadPoolState τ) (v q : Int)
    (t : Nat) (h : s.isPoolRunning = false) (hm : s.poolMode = PoolMode.MODE_FIXED) :
    ThreadPool.setTaskQueueMaxSize s q = s
    ∧ ThreadPool.setMaxThreadFreeTime_ s t = s
    ∧ ThreadPool.setMaxThreadSize s v = { s with maxThreadSize := uint64OfInt v }
    ∧ (∀ s2 : ThreadPoolState τ, s2.isPoolRunning = false →
        ThreadPool.setMaxThreadSize s2 v = { s2 with maxThreadSize := uint64OfInt v })
    ∧ (ThreadPool.new τ).taskQueueMaxSize = 2147483647
    ∧ (ThreadPool.new τ).maxThreadFreeTime = 60
    ∧ (ThreadPool.new τ).poolMode = PoolMode.MODE_FIXED := by
  refine ⟨?_, ?_, ?_, ?_, rfl, rfl, rfl⟩
  · simp [ThreadPool.setTaskQueueMaxSize, ThreadPool.isRunningState, h, hm]
  · simp [ThreadPool.setMaxThreadFreeTime_, ThreadPool.isRunningState, h, hm]
  · simp [ThreadPool.setMaxThreadSize, ThreadPool.isRunningState, h]
  · intro s2 h2
    simp [ThreadPool.setMaxThreadSize, ThreadPool.isRunningState, h2]

theorem setters_gated_by_cached_mode_witness :
    ThreadPool.setTaskQueueMaxSize (ThreadPool.new Nat) 5 = ThreadPool.new Nat
    ∧ ThreadPool.setMaxThreadFreeTime_ (ThreadPool.new Nat) 1 = ThreadPool.new Nat
    ∧ ThreadPool.setMaxThreadSize (ThreadPool.new Nat) 2048
        = { ThreadPool.new Nat with maxThreadSize := uint64OfInt 2048 }
    ∧ (ThreadPool.new Nat).taskQueueMaxSize = 2147483647 := by
  have h := setters_gated_by_cached_mode (ThreadPool.new Nat) 2048 5 1 rfl rfl
  exact ⟨h.1, h.2.1, h.2.2.1, h.2.2.2.2.1⟩

/-- Claim C3: the task queue never grows past taskQueueMaxSize.  A submission
enqueues only when the length was observed below the bound, a timed out
submission leaves the queue and the task counter untouched, and the worker
side only ever shortens the queue. -/
theorem submitTask_respects_taskQueueMaxSize {α β : Type} [Inhabited β]
    (s : ThreadPoolState (Unit → β)) (func : α → β) (args : α)
    (newThreadId wid : Nat) (c : Bool) (dur : Nat)
    (h : s.taskQueue.length ≤ s.taskQueueMaxSize) :
    (ThreadPool.submitTask s func args newThreadId).state.taskQueue.length
      ≤ s.taskQueueMaxSize
    ∧ (ThreadPool.submitTask s func args newThreadId).state.taskQueueMaxSize
      = s.taskQueueMaxSize
    ∧ ((ThreadPool.submitTask s func args newThreadId).enqueued = true →
        s.taskQueue.length < s.taskQueueMaxSize
        ∧ (ThreadPool.submitTask s func args newThreadId).state.taskQueue
          = s.taskQueue ++ [fun _ => func args])
    ∧ ((ThreadPool.submitTask s func args newThreadId).enqueued = false →
        (ThreadPool.submitTask s func args newThreadId).state.taskQueue = s.taskQueue
        ∧ (ThreadPool.submitTask s func args newThreadId).state.taskSize = s.taskSize)
    ∧ (ThreadPool.threadFuncCheck s wid).state.taskQueue.length ≤ s.taskQueueMaxSize
    ∧ (ThreadPool.threadFuncWake s wid c dur).state.taskQueue.length
      ≤ s.taskQueueMaxSize := by
  refine ⟨?_, ?_, ?_, ?_,
    le_trans (threadFuncCheck_queue_shrinks s wid) h,
    le_trans (threadFuncWake_queue_shrinks s wid c dur) h⟩ <;>
    by_cases hfull : s.taskQueue.length < s.taskQueueMaxSize <;>
      simp only [ThreadPool.submitTask, hfull, not_true, not_false_iff, if_true, if_false,
        ite_true, ite_false, not_not, ite_not] <;>
      (try split) <;>
      simp_all <;> omega

def c3Pool : ThreadPoolState (Unit → Int) :=
  { ThreadPool.new (Unit → Int) with
      taskQueueMaxSize := 2
      taskQueue := [fun _ => 5]
      taskSize := 1 }

theorem submitTask_respects_taskQueueMaxSize_witness :
    c3Pool.taskQueue.length ≤ c3Pool.taskQueueMaxSize
    ∧ (ThreadPool.submitTask c3Pool (fun p : Int × Int => p.1 + p.2) (1, 2) 0).state.taskQueue.length
        ≤ c3Pool.taskQueueMaxSize := by
  have h := submitTask_respects_taskQueueMaxSize c3Pool (fun p : Int × Int => p.1 + p.2)
    (1, 2) 0 0 false 0 (by norm_num [c3Pool, ThreadPool.new])
  exact ⟨by norm_num [c3Pool, ThreadPool.new], h.1⟩

def c4State : ThreadPoolState (Unit → Int) :=
  { ThreadPool.new (Unit → Int) with
      poolMode := PoolMode.MODE_CACHED
      isPoolRunning := true
      taskQueueMaxSize := 1
      taskQueue := [fun _ => 0]
      taskSize := 1
      idleThreadSize := 0
      threadsMap := [0, 1]
      maxThreadSize := 4
      initThreadSize := 2 }

/-- Claim C4, counterexample to the claimed equivalence: in this state the
pool is in Cached mode, the pending task count exceeds the idle worker count
and the worker count is below maxThreadSize, yet submitTask creates no worker,
because its one-second wait for queue room elapsed (the queue is full) and the
function returns from the failure branch before reaching the growth check. -/
theorem submitTask_full_queue_skips_cached_growth_cex :
    (c4State.poolMode = PoolMode.MODE_CACHED
      ∧ c4State.taskSize > uint32OfInt c4State.idleThreadSize
      ∧ c4State.threadsMap.length < c4State.maxThreadSize)
    ∧ (ThreadPool.submitTask c4State (fun p : Int × Int => p.1 + p.2) (1, 2) 7).createdWorker
        = none
    ∧ (ThreadPool.submitTask c4State (fun p : Int × Int => p.1 + p.2) (1, 2) 7).state.threadsMap
        = c4State.threadsMap
    ∧ ¬ ((ThreadPool.submitTask c4State (fun p : Int × Int => p.1 + p.2) (1, 2) 7).createdWorker
          ≠ none
        ↔ (c4State.poolMode = PoolMode.MODE_CACHED
          ∧ c4State.taskSize > uint32OfInt c4State.idleThreadSize
          ∧ c4State.threadsMap.length < c4State.maxThreadSize)) := by
  have hcond : c4State.poolMode = PoolMode.MODE_CACHED
      ∧ c4State.taskSize > uint32OfInt c4State.idleThreadSize
      ∧ c4State.threadsMap.length < c4State.maxThreadSize := by
    refine ⟨rfl, ?_, by norm_num [c4State, ThreadPool.new]⟩
    norm_num [c4State, ThreadPool.new, uint32OfInt]
  have hnone : (ThreadPool.submitTask c4State (fun p : Int × Int => p.1 + p.2) (1, 2) 7).createdWorker
      = none := rfl
  refine ⟨hcond, hnone, rfl, ?_⟩
  intro hiff
  exact (hiff.mpr hcond) hnone

/-- Claim C4 amended: on a call whose wait for queue room succeeds (the task
is enqueued), submitTask creates and starts one new worker exactly when the
mode is Cached, the incremented task count exceeds the idle worker count under
the C++ unsigned comparison, and the worker count is below maxThreadSize; each
call adds at most one worker and the count never exceeds maxThreadSize. -/
theorem submitTask_cached_growth_characterization {α β : Type} [Inhabited β]
    (s : ThreadPoolState (Unit → β)) (func : α → β) (args : α) (newThreadId : Nat)
    (h : s.taskQueue.length < s.taskQueueMaxSize)
    (hm : s.threadsMap.length ≤ s.maxThreadSize) :
    ((ThreadPool.submitTask s func args newThreadId).createdWorker ≠ none ↔
      (s.poolMode = PoolMode.MODE_CACHED
        ∧ uint32Wrap (s.taskSize + 1) > uint32OfInt s.idleThreadSize
        ∧ s.threadsMap.length < s.maxThreadSize))
    ∧ ((ThreadPool.submitTask s func args newThreadId).createdWorker ≠ none →
        (ThreadPool.submitTask s func args newThreadId).createdWorker = some newThreadId)
    ∧ (ThreadPool.submitTask s func args newThreadId).state.threadsMap.length
        ≤ s.maxThreadSize
    ∧ (ThreadPool.submitTask s func args newThreadId).state.threadsMap.length
        ≤ s.threadsMap.length + 1 := by
  simp only [ThreadPool.submitTask, h, not_true, not_false_iff, if_true, if_false,
    ite_true, ite_false, not_not, ite_not]
  split
  · rename_i hc
    refine ⟨by simp_all, by simp, ?_, ?_⟩
    · simp only []
      calc (mapEmplace s.threadsMap newThreadId).length ≤ s.threadsMap.length + 1 :=
            mapEmplace_length_le s.threadsMap newThreadId
        _ ≤ s.maxThreadSize := by
            have := hc.2.2
            simp_all
            omega
    · exact mapEmplace_length_le s.threadsMap newThreadId
  · rename_i hc
    refine ⟨by simp_all, by simp, by simpa using hm, by simp⟩

def c4GrowState : ThreadPoolState (Unit → Int) :=
  { ThreadPool.new (Unit → Int) with
      poolMode := PoolMode.MODE_CACHED
      isPoolRunning := true
      taskQueueMaxSize := 8
      taskQueue := []
      taskSize := 0
      idleThreadSize := 0
      threadsMap := [0]
      maxThreadSize := 4
      initThreadSize := 1 }

theorem submitTask_cached_growth_characterization_witness :
    c4GrowState.taskQueue.length < c4GrowState.taskQueueMaxSize
    ∧ c4GrowState.threadsMap.length ≤ c4GrowState.maxThreadSize
    ∧ (ThreadPool.submitTask c4GrowState (fun p : Int × Int => p.1 + p.2) (1, 2) 1).createdWorker
        ≠ none
    ∧ (ThreadPool.submitTask c4GrowState (fun p : Int × Int => p.1 + p.2) (1, 2) 1).state.threadsMap.length
        ≤ c4GrowState.maxThreadSize := by
  have h1 : c4GrowState.taskQueue.length < c4GrowState.taskQueueMaxSize := by
    norm_num [c4GrowState, ThreadPool.new]
  have h2 : c4GrowState.threadsMap.length ≤ c4GrowState.maxThreadSize := by
    norm_num [c4GrowState, ThreadPool.new]
  have h := submitTask_cached_growth_characterization c4GrowState
    (fun p : Int × Int => p.1 + p.2) (1, 2) 1 h1 h2
  refine ⟨h1, h2, ?_, h.2.2.1⟩
  refine h.1.mpr ⟨rfl, ?_, by norm_num [c4GrowState, ThreadPool.new]⟩
  norm_num [c4GrowState, ThreadPool.new, uint32Wrap, uint32OfInt]

def c1FullPool : ThreadPoolState (Unit → Int) :=
  { ThreadPool.new (Unit → Int) with
      taskQueueMaxSize := 1
      taskQueue := [fun _ => 0]
      taskSize := 1
      isPoolRunning := true }

/-- Claim C1, evaluated at a failing input: with the queue full for the whole
wait, submitTask indeed fails without throwing, enqueues nothing and leaves
every counter untouched, but the returned future is the future of the
placeholder packaged task that is destroyed without ever being invoked, so a
get on it raises broken_promise and never produces the default-constructed
value 0 that the claim promises. -/
theorem submitTask_timeout_future_never_holds_default :
    (¬ (c1FullPool.taskQueue.length < c1FullPool.taskQueueMaxSize))
    ∧ (ThreadPool.submitTask c1FullPool (fun p : Int × Int => p.1 + p.2) (1, 2) 9).enqueued
        = false
    ∧ (ThreadPool.submitTask c1FullPool (fun p : Int × Int => p.1 + p.2) (1, 2) 9).state
        = c1FullPool
    ∧ (ThreadPool.submitTask c1FullPool (fun p : Int × Int => p.1 + p.2) (1, 2) 9).future
        = FutureOutcome.brokenPromise (fun _ => (default : Int))
    ∧ FutureOutcome.observe
        (ThreadPool.submitTask c1FullPool (fun p : Int × Int => p.1 + p.2) (1, 2) 9).future true
        = FutureObservation.brokenPromiseError
    ∧ FutureOutcome.observe
        (ThreadPool.submitTask c1FullPool (fun p : Int × Int => p.1 + p.2) (1, 2) 9).future true
        ≠ FutureObservation.value 0
    ∧ FutureOutcome.observe
        (ThreadPool.submitTask c1FullPool (fun p : Int × Int => p.1 + p.2) (1, 2) 9).future false
        ≠ FutureObservation.value 0 := by
  refine ⟨by norm_num [c1FullPool, ThreadPool.new], rfl, rfl, rfl, rfl, ?_, ?_⟩ <;>
    · intro hcontra
      simp only [ThreadPool.submitTask, FutureOutcome.observe] at hcontra
      exact FutureObservation.noConfusion hcontra

/-- Claim C2: whenever the queue has room, submitTask enqueues at the tail the
lambda that invokes the packaged task, hands back the future of that task, and
once a worker has executed the enqueued lambda the future yields exactly func
applied to the submitted arguments; draining the queue executes every queued
lambda in order, ending with the one just submitted. -/
theorem submitTask_enqueues_and_future_yields_result {α β : Type} [Inhabited β]
    (s : ThreadPoolState (Unit → β)) (func : α → β) (args : α) (newThreadId wid : Nat)
    (h : s.taskQueue.length < s.taskQueueMaxSize) :
    (ThreadPool.submitTask s func args newThreadId).enqueued = true
    ∧ (ThreadPool.submitTask s func args newThreadId).state.taskQueue
        = s.taskQueue ++ [fun _ => func args]
    ∧ (ThreadPool.submitTask s func args newThreadId).future
        = FutureOutcome.pendingOnQueue (fun _ => func args)
    ∧ FutureOutcome.observe (ThreadPool.submitTask s func args newThreadId).future true
        = FutureObservation.value (func args)
    ∧ FutureOutcome.observe (ThreadPool.submitTask s func args newThreadId).future false
        = FutureObservation.blockedPending
    ∧ ThreadPool.runConsume wid
        (ThreadPool.submitTask s func args newThreadId).state.taskQueue.length
        (ThreadPool.submitTask s func args newThreadId).state
        = s.taskQueue ++ [fun _ => func args] := by
  have hdrain : ThreadPool.runConsume wid
      (ThreadPool.submitTask s func args newThreadId).state.taskQueue.length
      (ThreadPool.submitTask s func args newThreadId).state
      = (ThreadPool.submitTask s func args newThreadId).state.taskQueue :=
    runConsume_eq_taskQueue wid _ _ le_rfl
  simp only [ThreadPool.submitTask, h, not_true, not_false_iff, if_true, if_false,
    ite_true, ite_false, not_not, ite_not] at hdrain ⊢
  split <;> split at hdrain <;> simp_all [FutureOutcome.observe]

theorem submitTask_enqueues_and_future_yields_result_witness :
    ((ThreadPool.new (Unit → Int)).taskQueue.length
        < (ThreadPool.new (Unit → Int)).taskQueueMaxSize)
    ∧ FutureOutcome.observe (ThreadPool.submitTask (ThreadPool.new (Unit → Int))
        (fun p : Int × Int => p.1 + p.2) (1, 2) 0).future true
        = FutureObservation.value 3
    ∧ FutureOutcome.observe (ThreadPool.submitTask (ThreadPool.new (Unit → Int))
        (fun p : Int × Int × Int => p.1 + p.2.1 + p.2.2) (1, 2, 3) 0).future true
        = FutureObservation.value 6 := by
  have h0 : (ThreadPool.new (Unit → Int)).taskQueue.length
      < (ThreadPool.new (Unit → Int)).taskQueueMaxSize := by
    norm_num [ThreadPool.new, TASK_MAX_SIZE]
  refine ⟨h0, ?_, ?_⟩
  · exact (submitTask_enqueues_and_future_yields_result (ThreadPool.new (Unit → Int))
      (fun p : Int × Int => p.1 + p.2) (1, 2) 0 0 h0).2.2.2.1
  · exact (submitTask_enqueues_and_future_yields_result (ThreadPool.new (Unit → Int))
      (fun p : Int × Int × Int => p.1 + p.2.1 + p.2.2) (1, 2, 3) 0 0 h0).2.2.2.1

/-- Claim C5: a worker retires on a Cached wait timeout only when the wait
actually timed out, its idle duration reached maxThreadFreeTime and the worker
count exceeds initThreadSize, so auto-retirement never takes the worker count
below initThreadSize; the lock-held loop check itself never retires a
worker. -/
theorem threadFuncWake_retire_only_above_floor {τ : Type} (s : ThreadPoolState τ)
    (threadId : Nat) (cvTimedOut : Bool) (idleDur : Nat)
    (h : (ThreadPool.threadFuncWake s threadId cvTimedOut idleDur).action
        = WorkerAction.retire) :
    (cvTimedOut = true ∧ idleDur ≥ s.maxThreadFreeTime
      ∧ s.threadsMap.length > s.initThreadSize)
    ∧ (ThreadPool.threadFuncWake s threadId cvTimedOut idleDur).state.threadsMap.length
        ≥ s.initThreadSize
    ∧ (ThreadPool.threadFuncCheck s threadId).action ≠ WorkerAction.retire := by
  by_cases hcond : (cvTimedOut = true ∧ idleDur ≥ s.maxThreadFreeTime
      ∧ s.threadsMap.length > s.initThreadSize)
  · obtain ⟨h1, h2, h3⟩ := hcond
    refine ⟨⟨h1, h2, h3⟩, ?_, threadFuncCheck_action_ne_retire s threadId⟩
    have : (ThreadPool.threadFuncWake s threadId cvTimedOut idleDur).state.threadsMap
        = s.threadsMap.erase threadId := by
      simp [ThreadPool.threadFuncWake, h1, h2, h3]
    rw [this]
    exact length_erase_ge h3
  · exfalso
    have heq : ThreadPool.threadFuncWake s threadId cvTimedOut idleDur
        = ThreadPool.threadFuncCheck s threadId := by
      rw [ThreadPool.threadFuncWake, if_neg]
      simpa using hcond
    rw [heq] at h
    exact threadFuncCheck_action_ne_retire s threadId h

def c5RetirePool : ThreadPoolState Nat :=
  { ThreadPool.new Nat with
      poolMode := PoolMode.MODE_CACHED
      isPoolRunning := true
      threadsMap := [0, 1, 2]
      initThreadSize := 2
      maxThreadFreeTime := 60
      idleThreadSize := 3 }

theorem threadFuncWake_retire_only_above_floor_witness :
    (ThreadPool.threadFuncWake c5RetirePool 2 true 61).action = WorkerAction.retire
    ∧ (ThreadPool.threadFuncWake c5RetirePool 2 true 61).state.threadsMap.length
        ≥ c5RetirePool.initThreadSize := by
  have hact : (ThreadPool.threadFuncWake c5RetirePool 2 true 61).action
      = WorkerAction.retire := by
    have hge : (61 : Nat) ≥ c5RetirePool.maxThreadFreeTime := by
      norm_num [c5RetirePool, ThreadPool.new]
    have hgt : c5RetirePool.threadsMap.length > c5RetirePool.initThreadSize := by
      norm_num [c5RetirePool, ThreadPool.new]
    simp [ThreadPool.threadFuncWake, hge, hgt]
  exact ⟨hact, (threadFuncWake_retire_only_above_floor c5RetirePool 2 true 61 hact).2.1⟩

/-- Claim C6: on the Cached timeout-retire path the worker decrements the idle
counter twice, not once: it erases itself from the worker map and the idle
counter of the resulting state is the original value minus two. -/
theorem threadFuncWake_retire_double_decrements_idle {τ : Type} (s : ThreadPoolState τ)
    (threadId : Nat) (idleDur : Nat)
    (hd : idleDur ≥ s.maxThreadFreeTime)
    (hn : s.threadsMap.length > s.initThreadSize)
    (h1 : -(2 ^ 31) + 2 ≤ s.idleThreadSize) (h2 : s.idleThreadSize < 2 ^ 31) :
    (ThreadPool.threadFuncWake s threadId true idleDur).action = WorkerAction.retire
    ∧ (ThreadPool.threadFuncWake s threadId true idleDur).state.idleThreadSize
        = s.idleThreadSize - 2
    ∧ (ThreadPool.threadFuncWake s threadId true idleDur).state.threadsMap
        = s.threadsMap.erase threadId := by
  have e1 : int32Wrap (s.idleThreadSize - 1) = s.idleThreadSize - 1 :=
    int32Wrap_of_bounds (by omega) (by omega)
  have e2 : int32Wrap (s.idleThreadSize - 1 - 1) = s.idleThreadSize - 2 := by
    rw [int32Wrap_of_bounds (by omega) (by omega)]
    ring
  simp [ThreadPool.threadFuncWake, hd, hn, e1, e2]

def c6RetirePool : ThreadPoolState Nat :=
  { ThreadPool.new Nat with
      poolMode := PoolMode.MODE_CACHED
      isPoolRunning := true
      threadsMap := [0, 1]
      initThreadSize := 1
      maxThreadFreeTime := 60
      idleThreadSize := 2 }

theorem threadFuncWake_retire_double_decrements_idle_witness :
    (ThreadPool.threadFuncWake c6RetirePool 1 true 60).state.idleThreadSize
        = c6RetirePool.idleThreadSize - 2
    ∧ (ThreadPool.threadFuncWake c6RetirePool 1 true 60).state.threadsMap = [0] := by
  have h := threadFuncWake_retire_double_decrements_idle c6RetirePool 1 60
    (by norm_num [c6RetirePool, ThreadPool.new])
    (by norm_num [c6RetirePool, ThreadPool.new])
    (by norm_num [c6RetirePool, ThreadPool.new])
    (by norm_num [c6RetirePool, ThreadPool.new])
  refine ⟨h.2.1, ?_⟩
  rw [h.2.2]
  rfl

def c7RacePool : ThreadPoolState (Unit → Int) :=
  { ThreadPool.new (Unit → Int) with
      poolMode := PoolMode.MODE_CACHED
      isPoolRunning := true
      threadsMap := [0, 1]
      initThreadSize := 1
      maxThreadFreeTime := 60
      taskQueue := [fun _ => 7]
      taskSize := 1
      idleThreadSize := 2 }

/-- Claim C7, counterexample: a worker in the Cached retire path exits while a
task remains queued.  The worker entered its one-second wait with an empty
queue; a producer acquired the lock during the wait, enqueued a task, and the
wait nevertheless reported a timeout (its notification arrived after the
deadline had passed).  The retire branch of the source re-checks only the idle
duration and the worker count, not the queue, so the worker erases itself and
returns with the queue non-empty. -/
theorem threadFuncWake_retire_with_nonempty_queue_cex :
    (ThreadPool.threadFuncWake c7RacePool 1 true 60).action = WorkerAction.retire
    ∧ c7RacePool.taskQueue ≠ []
    ∧ (ThreadPool.threadFuncWake c7RacePool 1 true 60).state.taskQueue ≠ []
    ∧ (ThreadPool.threadFuncWake c7RacePool 1 true 60).state.threadsMap = [0] := by
  have hge : (60 : Nat) ≥ c7RacePool.maxThreadFreeTime := by
    norm_num [c7RacePool, ThreadPool.new]
  have hgt : c7RacePool.threadsMap.length > c7RacePool.initThreadSize := by
    norm_num [c7RacePool, ThreadPool.new]
  refine ⟨by simp [ThreadPool.threadFuncWake, hge, hgt], by simp [c7RacePool], ?_, ?_⟩
  · simp [ThreadPool.threadFuncWake, hge, hgt, c7RacePool]
  · simp [ThreadPool.threadFuncWake, hge, hgt]
    rfl

/-- Claim C7 amended: the shutdown exit path is taken only when the worker
observes an empty queue under the lock, and a worker that finds the queue
non-empty always proceeds to execute the head task; the Cached retire path,
however, is guarded only by the idle duration and the worker count after its
wait returns, so it can be taken with a non-empty queue, in which case the
retiring worker leaves the queue exactly as it found it (the tasks stay for
the remaining workers, of which at least initThreadSize survive). -/
theorem worker_exit_paths_characterization {τ : Type} (s : ThreadPoolState τ)
    (threadId : Nat) (cvTimedOut : Bool) (idleDur : Nat) :
    ((ThreadPool.threadFuncCheck s threadId).action = WorkerAction.exit →
      s.taskQueue = []
      ∧ (ThreadPool.threadFuncCheck s threadId).state.taskQueue = []
      ∧ s.isPoolRunning = false)
    ∧ (∀ (t : τ) (rest : List τ), s.taskQueue = t :: rest →
        (ThreadPool.threadFuncCheck s threadId).action = WorkerAction.execute t)
    ∧ ((ThreadPool.threadFuncWake s threadId cvTimedOut idleDur).action
          = WorkerAction.retire →
        (ThreadPool.threadFuncWake s threadId cvTimedOut idleDur).state.taskQueue
          = s.taskQueue) := by
  refine ⟨?_, ?_, ?_⟩
  · intro hexit
    cases hq : s.taskQueue with
    | nil =>
      by_cases hr : s.isPoolRunning <;>
        by_cases hm : s.poolMode = PoolMode.MODE_CACHED <;>
        simp_all [ThreadPool.threadFuncCheck, hq, hr, hm]
    | cons t rest =>
      rw [ThreadPool.threadFuncCheck] at hexit
      rw [hq] at hexit
      exact WorkerAction.noConfusion hexit
  · intro t rest hq
    simp [ThreadPool.threadFuncCheck, hq]
  · intro hret
    by_cases hcond : ((cvTimedOut = true) ∧ idleDur ≥ s.maxThreadFreeTime
        ∧ s.threadsMap.length > s.initThreadSize)
    · simp [ThreadPool.threadFuncWake, hcond.1, hcond.2.1, hcond.2.2]
    · exfalso
      have heq : ThreadPool.threadFuncWake s threadId cvTimedOut idleDur
          = ThreadPool.threadFuncCheck s threadId := by
        rw [ThreadPool.threadFuncWake, if_neg]
        simpa using hcond
      rw [heq] at hret
      exact threadFuncCheck_action_ne_retire s threadId hret

def c7StopPool : ThreadPoolState Nat :=
  { ThreadPool.new Nat with threadsMap := [0] }

theorem worker_exit_paths_characterization_witness :
    c7StopPool.taskQueue = []
    ∧ (ThreadPool.threadFuncCheck c7StopPool 0).state.taskQueue = []
    ∧ c7StopPool.isPoolRunning = false :=
  (worker_exit_paths_characterization c7StopPool 0 false 0).1 rfl

/-- Claim C8: when a worker finds the queue non-empty it decrements the idle
counter, removes the head (oldest) task for execution, decrements the pending
task counter, signals not-full, and signals not-empty exactly when the queue
is still non-empty; repeatedly dequeuing drains the tasks in FIFO submission
order. -/
theorem threadFuncCheck_dequeue_fifo {τ : Type} (s : ThreadPoolState τ)
    (threadId wid fuel : Nat) (t : τ) (rest : List τ)
    (hq : s.taskQueue = t :: rest)
    (hi1 : -(2 ^ 31) < s.idleThreadSize) (hi2 : s.idleThreadSize < 2 ^ 31)
    (ht1 : 1 ≤ s.taskSize) (ht2 : s.taskSize < 2 ^ 32)
    (hf : s.taskQueue.length ≤ fuel) :
    (ThreadPool.threadFuncCheck s threadId).action = WorkerAction.execute t
    ∧ (ThreadPool.threadFuncCheck s threadId).state.taskQueue = rest
    ∧ (ThreadPool.threadFuncCheck s threadId).state.idleThreadSize
        = s.idleThreadSize - 1
    ∧ (ThreadPool.threadFuncCheck s threadId).state.taskSize = s.taskSize - 1
    ∧ (ThreadPool.threadFuncCheck s threadId).notifiedNotFull = true
    ∧ ((ThreadPool.threadFuncCheck s threadId).notifiedNotEmpty = true ↔ rest ≠ [])
    ∧ ThreadPool.runConsume wid fuel s = s.taskQueue := by
  have ei : int32Wrap (s.idleThreadSize - 1) = s.idleThreadSize - 1 :=
    int32Wrap_of_bounds (by omega) (by omega)
  refine ⟨?_, ?_, ?_, ?_, ?_, ?_, runConsume_eq_taskQueue wid fuel s hf⟩ <;>
    simp [ThreadPool.threadFuncCheck, hq, ei]
  unfold uint32Wrap
  omega

def c8Pool : ThreadPoolState Nat :=
  { ThreadPool.new Nat with
      isPoolRunning := true
      threadsMap := [0]
      initThreadSize := 1
      taskQueue := [10, 20, 30]
      taskSize := 3
      idleThreadSize := 1 }

theorem threadFuncCheck_dequeue_fifo_witness :
    (ThreadPool.threadFuncCheck c8Pool 0).action = WorkerAction.execute 10
    ∧ (ThreadPool.threadFuncCheck c8Pool 0).state.taskQueue = [20, 30]
    ∧ (ThreadPool.threadFuncCheck c8Pool 0).state.idleThreadSize = 0
    ∧ (ThreadPool.threadFuncCheck c8Pool 0).state.taskSize = 2
    ∧ (ThreadPool.threadFuncCheck c8Pool 0).notifiedNotFull = true
    ∧ (ThreadPool.threadFuncCheck c8Pool 0).notifiedNotEmpty = true
    ∧ ThreadPool.runConsume 0 3 c8Pool = [10, 20, 30] := by
  have h := threadFuncCheck_dequeue_fifo c8Pool 0 0 3 10 [20, 30] rfl
    (by norm_num [c8Pool, ThreadPool.new])
    (by norm_num [c8Pool, ThreadPool.new])
    (by norm_num [c8Pool, ThreadPool.new])
    (by norm_num [c8Pool, ThreadPool.new])
    (by norm_num [c8Pool, ThreadPool.new])
  refine ⟨h.1, h.2.1, ?_, ?_, h.2.2.2.2.1, ?_, ?_⟩
  · rw [h.2.2.1]
    rfl
  · rw [h.2.2.2.1]
    rfl
  · exact h.2.2.2.2.2.1.mpr (by simp)
  · have := h.2.2.2.2.2.2
    rwa [show c8Pool.taskQueue = [10, 20, 30] from rfl] at this
